import Mathlib

/-!
Verification development for the chemical equipment visualizer.

Shallow embedding of the repository's core pipeline:
- the desktop API client (`src/desktop-frontend/api.py`): token state,
  logout, token refresh, and the single refresh-and-retry cycle of
  `APIClient.get` / `APIClient.post`;
- the backend views (`src/backend/api/views.py`): CSV column validation,
  summary aggregation (`SummaryAPI.get`), upload history
  (`HistoryAPI.get` / `HistoryAPI.delete`), and the PDF report's
  type-distribution percentages (`PDFReportAPIView.get`).

Machine floats of the source are modelled as exact rationals; Python's
`round(x, n)` is modelled as round-half-to-even at `n` decimal places.
Missing cells (pandas `NaN`) are modelled as `Option` values.
-/

namespace ChemViz

/-! ## Desktop API client (`src/desktop-frontend/api.py`) -/

/-- Token state of `APIClient`: `_access_token` and `_refresh_token`,
both `Optional[str]`. -/
structure Client where
  access : Option String
  refresh : Option String
  deriving Repr, DecidableEq

/-- `APIClient.is_authenticated`: true when an access token is held. -/
def isAuthenticated (c : Client) : Bool :=
  c.access.isSome

/-- `APIClient.logout`: sets both tokens to `None`. -/
def logout (_c : Client) : Client :=
  { access := none, refresh := none }

/-- Environment for one `get`/`post` call: the status of the first
request, the response of the token-refresh endpoint (`none` = non-200 or
exception; `some a` = HTTP 200 whose body's `access` field is `a`), and
the status of the retried request. -/
structure NetOracle where
  firstStatus : Nat
  refreshResp : Option (Option String)
  retryStatus : Nat
  deriving Repr, DecidableEq

/-- `APIClient.refresh_access_token`: returns `(success, new client
state, number of network refresh requests issued)`. With no refresh
token it returns `False` without a network call; otherwise it posts to
the refresh endpoint, and on HTTP 200 stores the body's `access` field
as the access token and returns `True`; on any failure it returns
`False` leaving the state unchanged. -/
def refreshAccessToken (c : Client) (net : NetOracle) : Bool × Client × Nat :=
  match c.refresh with
  | none => (false, c, 0)
  | some _ =>
    match net.refreshResp with
    | some a => (true, { c with access := a }, 1)
    | none => (false, c, 1)

/-- Observable outcome of one `APIClient.get`/`post` call: final status,
the access token attached to each HTTP request of the original endpoint
(in order), how many network refresh requests were issued, and the final
client state. -/
structure CallResult where
  status : Nat
  tokensUsed : List (Option String)
  refreshNetCalls : Nat
  client : Client
  deriving Repr, DecidableEq

/-- `APIClient.get`: issues the request with the current access token;
if the response is 401 and a refresh token is held, calls
`refresh_access_token` and, only on refresh success, retries once with
the replaced access token; otherwise returns the first response. -/
def clientGet (c : Client) (net : NetOracle) : CallResult :=
  if net.firstStatus = 401 ∧ c.refresh.isSome then
    match refreshAccessToken c net with
    | (true, c2, n) =>
      { status := net.retryStatus, tokensUsed := [c.access, c2.access],
        refreshNetCalls := n, client := c2 }
    | (false, c2, n) =>
      { status := net.firstStatus, tokensUsed := [c.access],
        refreshNetCalls := n, client := c2 }
  else
    { status := net.firstStatus, tokensUsed := [c.access],
      refreshNetCalls := 0, client := c }

/-- `APIClient.post`: same refresh-and-retry logic as `get`; the
`files` flag only selects which headers are rebuilt for the retry, and
in both branches the retried request carries the replaced access
token. -/
def clientPost (c : Client) (files : Bool) (net : NetOracle) : CallResult :=
  if net.firstStatus = 401 ∧ c.refresh.isSome then
    match refreshAccessToken c net with
    | (true, c2, n) =>
      if files then
        { status := net.retryStatus, tokensUsed := [c.access, c2.access],
          refreshNetCalls := n, client := c2 }
      else
        { status := net.retryStatus, tokensUsed := [c.access, c2.access],
          refreshNetCalls := n, client := c2 }
    | (false, c2, n) =>
      { status := net.firstStatus, tokensUsed := [c.access],
        refreshNetCalls := n, client := c2 }
  else
    { status := net.firstStatus, tokensUsed := [c.access],
      refreshNetCalls := 0, client := c }

/-! ## CSV column validation (`UploadCSV.post`) -/

/-- The `required_columns` list of `UploadCSV.post`, in source order. -/
def requiredColumns : List String :=
  ["Equipment Name", "Type", "Flowrate", "Pressure", "Temperature"]

/-- The `for col in required_columns` loop: returns the first required
column absent from the parsed table's columns, if any. -/
def firstMissingColumn : List String → List String → Option String
  | [], _ => none
  | c :: rest, cols =>
    if c ∈ cols then firstMissingColumn rest cols else some c

/-- Column validation of `UploadCSV.post`: a 400 response naming the
first missing required column, or acceptance. -/
def validateColumns (cols : List String) : Except String Unit :=
  match firstMissingColumn requiredColumns cols with
  | some c => Except.error ("Missing column: " ++ c)
  | none => Except.ok ()

/-! ## Generic stable descending sort by a natural-number key

Models the descending ordering performed by pandas `value_counts`
(by count) and Django's `order_by` on `-uploaded_at` (by timestamp). -/

/-- Insert an element into a list sorted by nonincreasing key. -/
def insertByDesc (key : α → Nat) (p : α) : List α → List α
  | [] => [p]
  | q :: rest =>
    if key p < key q then q :: insertByDesc key p rest else p :: q :: rest

/-- Sort a list by nonincreasing key. -/
def sortByDesc (key : α → Nat) (l : List α) : List α :=
  l.foldr (insertByDesc key) []

/-! ## Upload history and dataset storage (`HistoryAPI`, `SummaryAPI`) -/

/-- A `Dataset` model row: `file_name` and the creation-assigned
`uploaded_at` timestamp. -/
structure DatasetRec where
  fileName : String
  uploadedAt : Nat
  deriving Repr, DecidableEq

/-- Backend state: `Dataset` rows in creation order, the set of files
existing on disk, and the clock assigning `auto_now_add` timestamps. -/
structure ServerState where
  records : List DatasetRec
  files : List String
  nextTime : Nat
  deriving Repr, DecidableEq

/-- Initial state: no datasets, no files. -/
def emptyState : ServerState :=
  { records := [], files := [], nextTime := 0 }

/-- A successful `UploadCSV.post`: writes the file to disk and creates
one `Dataset` record with the next timestamp. -/
def uploadRecord (s : ServerState) (name : String) : ServerState :=
  { records := s.records ++ [{ fileName := name, uploadedAt := s.nextTime }],
    files := name :: s.files,
    nextTime := s.nextTime + 1 }

/-- A sequence of uploads, oldest first. -/
def uploadSeq (names : List String) (s : ServerState) : ServerState :=
  names.foldl uploadRecord s

/-- `Dataset.objects.order_by` on descending `uploaded_at`. -/
def orderByUploadedDesc (rs : List DatasetRec) : List DatasetRec :=
  sortByDesc DatasetRec.uploadedAt rs

/-- `Dataset.objects.order_by('-uploaded_at').first()`, as used by
`SummaryAPI.get` and `PDFReportAPIView.get`. -/
def latestDataset (s : ServerState) : Option DatasetRec :=
  (orderByUploadedDesc s.records).head?

/-- `HistoryAPI.get`: the first five datasets by descending
`uploaded_at`, each projected to `(file_name, uploaded_at)`. -/
def historyEntries (s : ServerState) : List (String × Nat) :=
  ((orderByUploadedDesc s.records).take 5).map
    (fun d => (d.fileName, d.uploadedAt))

/-- `HistoryAPI.delete`: for every record, if its file exists, attempt
to remove it, swallowing any failure (`fail` says which removals raise);
then delete all records unconditionally. Returns the new state and the
list of file names whose deletion was attempted. -/
def clearAll (fail : String → Bool) (s : ServerState) :
    ServerState × List String :=
  let files2 := s.records.foldl
    (fun fs d =>
      if d.fileName ∈ fs ∧ ¬ fail d.fileName then fs.erase d.fileName else fs)
    s.files
  ({ records := [], files := files2, nextTime := s.nextTime },
    s.records.map DatasetRec.fileName)

/-! ## Aggregation (`SummaryAPI.get`, `PDFReportAPIView.get`) -/

/-- Distinct values of a list in order of first occurrence, skipping
values already seen (pandas groups values in order of appearance). -/
def firstSeenFrom (seen : List String) : List String → List String
  | [] => []
  | x :: rest =>
    if x ∈ seen then firstSeenFrom seen rest
    else x :: firstSeenFrom (x :: seen) rest

/-- Distinct values of a list in order of first occurrence. -/
def firstSeen (l : List String) : List String :=
  firstSeenFrom [] l

/-- `Series.value_counts().to_dict()` on the `Type` column: counts each
distinct non-missing value, then orders the pairs by descending count
(`value_counts` sorts descending by default; `to_dict` preserves that
order). Missing cells (`NaN`) are dropped. -/
def valueCounts (col : List (Option String)) : List (String × Nat) :=
  let vs := col.filterMap id
  sortByDesc Prod.snd ((firstSeen vs).map (fun v => (v, vs.count v)))

/-- Round-half-to-even of a rational to the nearest integer — the
rounding of Python's built-in `round`. -/
def roundHalfEven (x : ℚ) : ℤ :=
  let f := Int.floor x
  if x - f < 1 / 2 then f
  else if x - f > 1 / 2 then f + 1
  else if f % 2 = 0 then f else f + 1

/-- Python `round(x, 2)`. -/
def pyRound2 (x : ℚ) : ℚ :=
  (roundHalfEven (x * 100) : ℚ) / 100

/-- Python `round(x, 1)`. -/
def pyRound1 (x : ℚ) : ℚ :=
  (roundHalfEven (x * 10) : ℚ) / 10

/-- One row of the parsed CSV. A `none` cell is a pandas `NaN`
(missing value); numeric cells are modelled as exact rationals. -/
structure Row where
  equipmentName : Option String
  etype : Option String
  flowrate : Option ℚ
  pressure : Option ℚ
  temperature : Option ℚ
  deriving Repr, DecidableEq

/-- A parsed CSV table with the five required columns. -/
abbrev Table := List Row

/-- The `Type` column of a table. -/
def typeColumn (t : Table) : List (Option String) :=
  t.map Row.etype

/-- The non-missing values of a numeric column. -/
def presentVals (col : List (Option ℚ)) : List ℚ :=
  col.filterMap id

/-- `Series.mean()`: the mean of the non-missing values; `NaN`
(modelled `none`) when the column has no numeric values. -/
def pandasMean (col : List (Option ℚ)) : Option ℚ :=
  let vs := presentVals col
  if vs.isEmpty then none else some (vs.sum / (vs.length : ℚ))

/-- The summary computed by `SummaryAPI.get`: `len(df)`, the three
`round(mean, 2)` averages, and `value_counts().to_dict()` of `Type`. -/
structure Summary where
  totalRows : Nat
  avgFlowrate : Option ℚ
  avgPressure : Option ℚ
  avgTemperature : Option ℚ
  typeCountsList : List (String × Nat)
  deriving Repr, DecidableEq

/-- Steps 3 and 4 of `SummaryAPI.get` (shared by
`PDFReportAPIView.get`). -/
def summarize (t : Table) : Summary :=
  { totalRows := t.length,
    avgFlowrate := (pandasMean (t.map Row.flowrate)).map pyRound2,
    avgPressure := (pandasMean (t.map Row.pressure)).map pyRound2,
    avgTemperature := (pandasMean (t.map Row.temperature)).map pyRound2,
    typeCountsList := valueCounts (typeColumn t) }

/-- Modelled from the spec: the arithmetic mean of a column's values,
the reference against which the code's average computation is
checked. -/
def arithMean (xs : List ℚ) : ℚ :=
  xs.sum / (xs.length : ℚ)

/-- The PDF report's type-distribution rows: for each `(type, count)`
pair of `type_counts`, the row `(type, count,
round(count / total_rows * 100, 1))`, each percentage computed
independently. -/
def typeDistPercents (tc : List (String × Nat)) (totalRows : Nat) :
    List (String × Nat × ℚ) :=
  tc.map (fun p => (p.1, p.2, pyRound1 ((p.2 : ℚ) / (totalRows : ℚ) * 100)))

/-- The worked example of the spec: two pumps and one valve. -/
def exampleTable : Table :=
  [ { equipmentName := some "P1", etype := some "Pump",
      flowrate := some 10, pressure := some 2, temperature := some 30 },
    { equipmentName := some "P2", etype := some "Pump",
      flowrate := some 20, pressure := some 4, temperature := some 40 },
    { equipmentName := some "V1", etype := some "Valve",
      flowrate := some 5, pressure := some 1, temperature := some 20 } ]

/-- A row whose `Type` cell is missing. -/
def rowNoType : Row :=
  { equipmentName := some "E1", etype := none,
    flowrate := some 1, pressure := some 2, temperature := some 3 }

/-! ## Theorems -/

theorem firstMissingColumn_eq_some (req cols : List String) (c : String)
    (hc : c ∈ req) (hmiss : c ∉ cols)
    (hprev : ∀ d ∈ req.takeWhile (fun x => x ≠ c), d ∈ cols) :
    firstMissingColumn req cols = some c := by
  induction req with
  | nil => cases hc
  | cons r rest ih =>
    by_cases hrc : r = c
    · subst hrc
      simp [firstMissingColumn, hmiss]
    · have hrcols : r ∈ cols := by
        apply hprev
        simp [List.takeWhile, hrc]
      have hcrest : c ∈ rest := by
        cases hc with
        | head => exact absurd rfl hrc
        | tail _ h => exact h
      have hprev2 : ∀ d ∈ rest.takeWhile (fun x => x ≠ c), d ∈ cols := by
        intro d hd
        apply hprev
        simp only [List.takeWhile, hrc]
        simp only [decide_not, decide_eq_true_eq] at hd ⊢
        simp [hrc, hd]
      simp only [firstMissingColumn, hrcols, if_pos]
      exact ih hcrest hprev2

theorem insertByDesc_perm (key : α → Nat) (p : α) (l : List α) :
    List.Perm (insertByDesc key p l) (p :: l) := by
  induction l with
  | nil => simp [insertByDesc]
  | cons q rest ih =>
    by_cases h : key p < key q
    · simp only [insertByDesc, if_pos h]
      exact (List.Perm.cons q ih).trans (List.Perm.swap p q rest)
    · simp only [insertByDesc, if_neg h]
      exact List.Perm.refl _

theorem sortByDesc_perm (key : α → Nat) (l : List α) :
    List.Perm (sortByDesc key l) l := by
  induction l with
  | nil => rfl
  | cons x rest ih =>
    have h1 : List.Perm (insertByDesc key x (sortByDesc key rest))
        (x :: sortByDesc key rest) := insertByDesc_perm key x _
    exact h1.trans (List.Perm.cons x ih)

theorem insertByDesc_pairwise (key : α → Nat) (p : α) (l : List α)
    (hl : l.Pairwise (fun a b => key b ≤ key a)) :
    (insertByDesc key p l).Pairwise (fun a b => key b ≤ key a) := by
  induction l with
  | nil => simp [insertByDesc]
  | cons q rest ih =>
    rcases List.pairwise_cons.mp hl with ⟨hq, hrest⟩
    by_cases h : key p < key q
    · simp only [insertByDesc, if_pos h]
      refine List.pairwise_cons.mpr ⟨?_, ih hrest⟩
      intro b hb
      have hb2 : b ∈ p :: rest := (insertByDesc_perm key p rest).mem_iff.mp hb
      cases hb2 with
      | head => exact Nat.le_of_lt h
      | tail _ hbr => exact hq b hbr
    · simp only [insertByDesc, if_neg h]
      refine List.pairwise_cons.mpr ⟨?_, hl⟩
      intro b hb
      cases hb with
      | head => exact Nat.le_of_not_lt h
      | tail _ hbr => exact Nat.le_trans (hq b hbr) (Nat.le_of_not_lt h)

theorem sortByDesc_pairwise (key : α → Nat) (l : List α) :
    (sortByDesc key l).Pairwise (fun a b => key b ≤ key a) := by
  induction l with
  | nil => simp [sortByDesc]
  | cons x rest ih => exact insertByDesc_pairwise key x _ ih

/-- C5: a parsed table missing at least one required column fails
validation with a missing-column error naming the first missing column
in the fixed order Equipment Name, Type, Flowrate, Pressure,
Temperature (first-seen in `required_columns`), not a generic parse
error. -/
theorem validate_names_first_missing_column (cols : List String) (c : String)
    (hc : c ∈ requiredColumns) (hmiss : c ∉ cols)
    (hprev : ∀ d ∈ requiredColumns.takeWhile (fun x => x ≠ c), d ∈ cols) :
    validateColumns cols = Except.error ("Missing column: " ++ c) := by
  unfold validateColumns
  rw [firstMissingColumn_eq_some requiredColumns cols c hc hmiss hprev]

/-- Witness for C5: a CSV with the other four columns but no
`Pressure` column fails naming `Pressure` specifically. -/
theorem validate_names_first_missing_column_witness :
    validateColumns ["Equipment Name", "Type", "Flowrate", "Temperature"]
      = Except.error "Missing column: Pressure" :=
  validate_names_first_missing_column
    ["Equipment Name", "Type", "Flowrate", "Temperature"] "Pressure"
    (by decide) (by decide) (by decide)

/-- C3 counterexample: after 7 sequential uploads the history listing
holds five entries — the 3rd through 7th uploads — not only the 4th
through 7th as claimed. -/
theorem history_after_seven_counterexample :
    historyEntries (uploadSeq ["u1", "u2", "u3", "u4", "u5", "u6", "u7"] emptyState)
      ≠ [("u7", 6), ("u6", 5), ("u5", 4), ("u4", 3)] := by
  decide

/-- C3 (amended): the history listing returns the most recently created
records newest-first, bounded to 5; after 7 sequential uploads it
returns exactly the 3rd through 7th uploads (inclusive), newest
first. -/
theorem history_after_seven (f1 f2 f3 f4 f5 f6 f7 : String) :
    historyEntries (uploadSeq [f1, f2, f3, f4, f5, f6, f7] emptyState)
      = [(f7, 6), (f6, 5), (f5, 4), (f4, 3), (f3, 2)] := by
  rfl

/-- C7: clearing history attempts to delete the backing file of every
record — missing files and failed deletions are skipped and deletion
continues — then deletes all dataset records unconditionally, for any
pattern of file-deletion failures; afterwards the latest-dataset lookup
reports the no-dataset condition even if uploads existed before. -/
theorem clear_all_deletes_records (fail : String → Bool) (s : ServerState) :
    ((clearAll fail s).2 = s.records.map DatasetRec.fileName) ∧
    ((clearAll fail s).1.records = []) ∧
    (latestDataset (clearAll fail s).1 = none) := by
  exact ⟨rfl, rfl, rfl⟩

theorem mem_firstSeenFrom {v : String} :
    ∀ (seen l : List String), v ∈ firstSeenFrom seen l ↔ v ∈ l ∧ v ∉ seen := by
  intro seen l
  induction l generalizing seen with
  | nil => simp [firstSeenFrom]
  | cons x rest ih =>
    by_cases hx : x ∈ seen
    · rw [firstSeenFrom, if_pos hx, ih]
      constructor
      · rintro ⟨h1, h2⟩
        exact ⟨List.mem_cons_of_mem x h1, h2⟩
      · rintro ⟨h1, h2⟩
        refine ⟨?_, h2⟩
        cases h1 with
        | head => exact absurd hx h2
        | tail _ h3 => exact h3
    · rw [firstSeenFrom, if_neg hx]
      by_cases hvx : v = x
      · subst hvx
        simp [hx]
      · simp only [List.mem_cons, hvx, false_or, ih]

theorem nodup_firstSeenFrom :
    ∀ (seen l : List String), (firstSeenFrom seen l).Nodup := by
  intro seen l
  induction l generalizing seen with
  | nil => simp [firstSeenFrom]
  | cons x rest ih =>
    by_cases hx : x ∈ seen
    · rw [firstSeenFrom, if_pos hx]
      exact ih seen
    · rw [firstSeenFrom, if_neg hx]
      refine List.nodup_cons.mpr ⟨?_, ih (x :: seen)⟩
      intro hmem
      exact ((mem_firstSeenFrom (x :: seen) rest).mp hmem).2 (List.mem_cons_self _ _)

theorem firstSeen_perm_dedup (l : List String) :
    List.Perm (firstSeen l) l.dedup := by
  rw [firstSeen]
  rw [List.perm_ext_iff_of_nodup (nodup_firstSeenFrom [] l) (List.nodup_dedup l)]
  intro a
  rw [List.mem_dedup, mem_firstSeenFrom]
  simp

/-- Summing the full-list counts over the distinct values gives the
list's length. -/
theorem sum_firstSeen_count (l : List String) :
    ((firstSeen l).map (fun v => l.count v)).sum = l.length := by
  have hperm := (firstSeen_perm_dedup l).map (fun v => l.count v)
  rw [hperm.sum_eq]
  exact List.sum_map_count_dedup_eq_length l

theorem filterMap_id_length_of_isSome {l : List (Option String)}
    (h : ∀ x ∈ l, x.isSome) : (l.filterMap id).length = l.length := by
  induction l with
  | nil => rfl
  | cons a rest ih =>
    obtain ⟨y, hy⟩ := Option.isSome_iff_exists.mp (h a (List.mem_cons_self _ _))
    subst hy
    simp only [List.filterMap_cons, id, List.length_cons]
    rw [ih (fun x hx => h x (List.mem_cons_of_mem _ hx))]

theorem floor_spec (x : ℚ) (f : ℤ) (h1 : (f : ℚ) ≤ x) (h2 : x < (f : ℚ) + 1) :
    Int.floor x = f := by
  rw [Int.floor_eq_iff]
  exact ⟨h1, by linarith⟩

theorem roundHalfEven_lt_half (x : ℚ) (f : ℤ) (hfl : Int.floor x = f)
    (h2 : x - f < 1 / 2) : roundHalfEven x = f := by
  simp only [roundHalfEven, hfl]
  rw [if_pos h2]

theorem roundHalfEven_gt_half (x : ℚ) (f : ℤ) (hfl : Int.floor x = f)
    (h2 : 1 / 2 < x - f) : roundHalfEven x = f + 1 := by
  simp only [roundHalfEven, hfl]
  rw [if_neg (by linarith), if_pos h2]

theorem pyRound2_flow : pyRound2 ((35 : ℚ) / 3) = 1167 / 100 := by
  rw [pyRound2]
  rw [roundHalfEven_gt_half _ 1166 (floor_spec _ _ (by norm_num) (by norm_num))
    (by norm_num)]
  norm_num

theorem pyRound2_press : pyRound2 ((7 : ℚ) / 3) = 233 / 100 := by
  rw [pyRound2]
  rw [roundHalfEven_lt_half _ 233 (floor_spec _ _ (by norm_num) (by norm_num))
    (by norm_num)]
  norm_num

theorem pyRound2_temp : pyRound2 (30 : ℚ) = 30 := by
  rw [pyRound2]
  rw [roundHalfEven_lt_half _ 3000 (floor_spec _ _ (by norm_num) (by norm_num))
    (by norm_num)]
  norm_num

theorem pyRound1_third : pyRound1 ((1 : ℚ) / 3 * 100) = 333 / 10 := by
  rw [pyRound1]
  rw [roundHalfEven_lt_half _ 333 (floor_spec _ _ (by norm_num) (by norm_num))
    (by norm_num)]
  norm_num

theorem pyRound1_two_thirds : pyRound1 ((2 : ℚ) / 3 * 100) = 667 / 10 := by
  rw [pyRound1]
  rw [roundHalfEven_gt_half _ 666 (floor_spec _ _ (by norm_num) (by norm_num))
    (by norm_num)]
  norm_num

theorem summarize_example_means :
    (summarize exampleTable).avgFlowrate = some (pyRound2 ((35 : ℚ) / 3)) ∧
    (summarize exampleTable).avgPressure = some (pyRound2 ((7 : ℚ) / 3)) ∧
    (summarize exampleTable).avgTemperature = some (pyRound2 (30 : ℚ)) := by
  refine ⟨?_, ?_, ?_⟩ <;>
    norm_num [summarize, exampleTable, pandasMean, presentVals,
      List.filterMap_cons]

/-- C1 counterexample: on the Type column Valve, Pump, Pump the key
order of `value_counts().to_dict()` is Pump, Valve (descending count),
not the first-encountered order Valve, Pump that the claim states. -/
theorem type_counts_first_seen_counterexample :
    ((valueCounts [some "Valve", some "Pump", some "Pump"]).map Prod.fst)
      ≠ firstSeen ["Valve", "Pump", "Pump"] := by
  decide

/-- C1 (amended): type_counts maps each distinct non-missing value of
the Type column to its frequency — its pairs are, up to order, exactly
the first-encountered distinct values paired with their counts — and
the key order is by descending frequency (pandas `value_counts`
default sort), not the order of first encounter. -/
theorem type_counts_freq_desc (col : List (Option String)) :
    List.Perm (valueCounts col)
      ((firstSeen (col.filterMap id)).map
        (fun v => (v, (col.filterMap id).count v))) ∧
    (valueCounts col).Pairwise (fun a b => b.2 ≤ a.2) := by
  constructor
  · exact sortByDesc_perm _ _
  · exact sortByDesc_pairwise _ _

/-- C2 counterexample: a one-row table whose Type cell is missing
passes column validation, yet its summary has total_rows = 1 while the
type counts sum to 0. -/
theorem total_rows_sum_counterexample :
    (summarize [rowNoType]).totalRows
      ≠ ((summarize [rowNoType]).typeCountsList.map Prod.snd).sum := by
  decide

/-- C2 (amended): for every validated table in which every row has a
non-missing Type value, total_rows equals the sum of the type_counts
values. -/
theorem total_rows_eq_sum_type_counts (t : Table)
    (h : ∀ r ∈ t, (Row.etype r).isSome) :
    (summarize t).totalRows
      = ((summarize t).typeCountsList.map Prod.snd).sum := by
  have hvs : ((typeColumn t).filterMap id).length = (typeColumn t).length := by
    apply filterMap_id_length_of_isSome
    intro x hx
    obtain ⟨r, hr, hrx⟩ := List.mem_map.mp hx
    rw [← hrx]
    exact h r hr
  have hperm := (sortByDesc_perm Prod.snd
    ((firstSeen ((typeColumn t).filterMap id)).map
      (fun v => (v, ((typeColumn t).filterMap id).count v)))).map Prod.snd
  have hsum := hperm.sum_eq
  show t.length = ((valueCounts (typeColumn t)).map Prod.snd).sum
  rw [show valueCounts (typeColumn t) = sortByDesc Prod.snd
    ((firstSeen ((typeColumn t).filterMap id)).map
      (fun v => (v, ((typeColumn t).filterMap id).count v))) from rfl]
  rw [hsum, List.map_map]
  have hcomp : (Prod.snd ∘ fun v => (v, ((typeColumn t).filterMap id).count v))
      = fun v => ((typeColumn t).filterMap id).count v := rfl
  rw [hcomp, sum_firstSeen_count, hvs]
  rw [typeColumn, List.length_map]

/-- Witness for C2 on the spec's worked example. -/
theorem total_rows_eq_sum_type_counts_witness :
    (summarize exampleTable).totalRows
      = ((summarize exampleTable).typeCountsList.map Prod.snd).sum :=
  total_rows_eq_sum_type_counts exampleTable (by decide)

/-- C6: for every valid table whose numeric columns each contain at
least one numeric value, each reported average is the arithmetic mean
of the column's numeric values rounded to 2 decimal places with
round-half-to-even. -/
theorem averages_are_rounded_means (t : Table)
    (hf : presentVals (t.map Row.flowrate) ≠ [])
    (hp : presentVals (t.map Row.pressure) ≠ [])
    (ht : presentVals (t.map Row.temperature) ≠ []) :
    (summarize t).avgFlowrate
      = some (pyRound2 (arithMean (presentVals (t.map Row.flowrate)))) ∧
    (summarize t).avgPressure
      = some (pyRound2 (arithMean (presentVals (t.map Row.pressure)))) ∧
    (summarize t).avgTemperature
      = some (pyRound2 (arithMean (presentVals (t.map Row.temperature)))) := by
  refine ⟨?_, ?_, ?_⟩ <;>
    simp [summarize, pandasMean, arithMean, List.isEmpty_iff, hf, hp, ht]

/-- Witness for C6 on the spec's worked example: the averages evaluate
to 11.67, 2.33 and 30.0. -/
theorem averages_are_rounded_means_witness :
    ((summarize exampleTable).avgFlowrate
      = some (pyRound2 (arithMean (presentVals (exampleTable.map Row.flowrate)))) ∧
    (summarize exampleTable).avgPressure
      = some (pyRound2 (arithMean (presentVals (exampleTable.map Row.pressure)))) ∧
    (summarize exampleTable).avgTemperature
      = some (pyRound2 (arithMean (presentVals (exampleTable.map Row.temperature))))) ∧
    (summarize exampleTable).avgFlowrate = some (1167 / 100) ∧
    (summarize exampleTable).avgPressure = some (233 / 100) ∧
    (summarize exampleTable).avgTemperature = some 30 :=
  ⟨averages_are_rounded_means exampleTable (by decide) (by decide) (by decide),
    by rw [summarize_example_means.1, pyRound2_flow],
    by rw [summarize_example_means.2.1, pyRound2_press],
    by rw [summarize_example_means.2.2, pyRound2_temp]⟩

/-- C8: each percentage of the report's type-distribution table equals
round(count / total_rows * 100, 1), computed independently per type,
and the percentages are not normalized: for three equally frequent
types out of 3 rows they sum to 99.9, not 100. -/
theorem report_percentages (tc : List (String × Nat)) (total : Nat)
    (ty : String) (c : Nat) (q : ℚ)
    (h : (ty, c, q) ∈ typeDistPercents tc total) :
    q = pyRound1 ((c : ℚ) / (total : ℚ) * 100) ∧
    ((typeDistPercents [("A", 1), ("B", 1), ("C", 1)] 3).map
      (fun p => p.2.2)).sum ≠ 100 := by
  constructor
  · obtain ⟨p, hp, heq⟩ := List.mem_map.mp h
    have h2 : p.2 = c := congrArg (fun z => z.2.1) heq
    have h3 : pyRound1 ((p.2 : ℚ) / (total : ℚ) * 100) = q :=
      congrArg (fun z => z.2.2) heq
    rw [← h3, h2]
  · have harg : (((1 : Nat) : ℚ)) / (((3 : Nat) : ℚ)) * 100 = (1 : ℚ) / 3 * 100 := by
      norm_num
    simp only [typeDistPercents, List.map_cons, List.map_nil, List.sum_cons,
      List.sum_nil, harg, pyRound1_third]
    norm_num

/-- Witness for C8: the Pump share of the worked example, 2 of 3 rows,
is listed as 66.7. -/
theorem report_percentages_witness :
    (667 : ℚ) / 10 = pyRound1 ((2 : ℚ) / (3 : ℚ) * 100) ∧
    ((typeDistPercents [("A", 1), ("B", 1), ("C", 1)] 3).map
      (fun p => p.2.2)).sum ≠ 100 :=
  report_percentages [("Pump", 2)] 3 "Pump" 2 (667 / 10) (by
    have harg : pyRound1 ((((2 : Nat) : ℚ)) / (((3 : Nat) : ℚ)) * 100) = 667 / 10 := by
      have hc : (((2 : Nat) : ℚ)) / (((3 : Nat) : ℚ)) * 100 = (2 : ℚ) / 3 * 100 := by
        norm_num
      rw [hc, pyRound1_two_thirds]
    simp only [typeDistPercents, List.map_cons, List.map_nil, harg]
    simp)

/-- C9: logout transitions the client to the unauthenticated state and
discards both the access token and the refresh token, and it is
idempotent: from any state, including repeatedly, it yields the same
unauthenticated empty-token state. -/
theorem logout_unauthenticated_idempotent (c : Client) :
    (logout c).access = none ∧ (logout c).refresh = none ∧
    isAuthenticated (logout c) = false ∧
    logout (logout c) = logout c ∧
    (∀ c2 : Client, logout c2 = logout c) := by
  refine ⟨rfl, rfl, rfl, rfl, fun c2 => rfl⟩

/-- C10: a successful refresh replaces only the access token — the
refresh token is unchanged by `refresh_access_token` — and when no
refresh token is held, or the refresh fails, both tokens are left
exactly as they were. -/
theorem refresh_preserves_refresh_token (c : Client) (net : NetOracle) :
    ((refreshAccessToken c net).2.1.refresh = c.refresh) ∧
    (c.refresh = none → refreshAccessToken c net = (false, c, 0)) ∧
    ((refreshAccessToken c net).1 = false → (refreshAccessToken c net).2.1 = c) ∧
    ((refreshAccessToken c net).1 = true →
      ∃ a, net.refreshResp = some a ∧
        (refreshAccessToken c net).2.1 = { c with access := a }) := by
  cases hr : c.refresh with
  | none => simp [refreshAccessToken, hr]
  | some r =>
    cases hn : net.refreshResp with
    | none => simp [refreshAccessToken, hr, hn]
    | some a => simp [refreshAccessToken, hr, hn]

/-- Witness for C10 at a concrete client and network outcome. -/
theorem refresh_preserves_refresh_token_witness :
    (refreshAccessToken ⟨some "old", some "r"⟩ ⟨401, some (some "new"), 200⟩).2.1.refresh
      = some "r" :=
  (refresh_preserves_refresh_token ⟨some "old", some "r"⟩ ⟨401, some (some "new"), 200⟩).1

/-- C4: when a call receives an unauthorized (401) response while a
refresh token is held, `get` and `post` issue exactly one network
refresh request; on refresh success the original call is retried
exactly once, carrying the replaced access token; on refresh failure
the call returns the unauthorized response with no retry. In every
case at most one refresh request is consumed per original call. -/
theorem call_single_refresh_retry (c : Client) (net : NetOracle)
    (hr : c.refresh.isSome) (h401 : net.firstStatus = 401) :
    ((clientGet c net).refreshNetCalls = 1 ∧
      (∀ a, net.refreshResp = some a →
        (clientGet c net).tokensUsed = [c.access, a] ∧
        (clientGet c net).client.access = a ∧
        (clientGet c net).status = net.retryStatus) ∧
      (net.refreshResp = none →
        (clientGet c net).status = 401 ∧
        (clientGet c net).tokensUsed = [c.access])) ∧
    (∀ files : Bool,
      (clientPost c files net).refreshNetCalls = 1 ∧
      (∀ a, net.refreshResp = some a →
        (clientPost c files net).tokensUsed = [c.access, a] ∧
        (clientPost c files net).client.access = a ∧
        (clientPost c files net).status = net.retryStatus) ∧
      (net.refreshResp = none →
        (clientPost c files net).status = 401 ∧
        (clientPost c files net).tokensUsed = [c.access])) ∧
    (∀ (c2 : Client) (net2 : NetOracle) (files : Bool),
      (clientGet c2 net2).refreshNetCalls ≤ 1 ∧
      (clientPost c2 files net2).refreshNetCalls ≤ 1) := by
  obtain ⟨r, hrr⟩ := Option.isSome_iff_exists.mp hr
  refine ⟨?_, ?_, ?_⟩
  · cases hn : net.refreshResp with
    | none =>
      simp [clientGet, refreshAccessToken, hrr, hn, h401]
    | some a =>
      simp [clientGet, refreshAccessToken, hrr, hn, h401]
  · intro files
    cases hn : net.refreshResp with
    | none =>
      cases files <;> simp [clientPost, refreshAccessToken, hrr, hn, h401]
    | some a =>
      cases files <;> simp [clientPost, refreshAccessToken, hrr, hn, h401]
  · intro c2 net2 files
    constructor
    · by_cases hcond : net2.firstStatus = 401 ∧ c2.refresh.isSome
      · obtain ⟨r2, hrr2⟩ := Option.isSome_iff_exists.mp hcond.2
        cases hn : net2.refreshResp <;>
          simp [clientGet, refreshAccessToken, hrr2, hn, hcond.1]
      · simp [clientGet, hcond]
    · by_cases hcond : net2.firstStatus = 401 ∧ c2.refresh.isSome
      · obtain ⟨r2, hrr2⟩ := Option.isSome_iff_exists.mp hcond.2
        cases hn : net2.refreshResp <;> cases files <;>
          simp [clientPost, refreshAccessToken, hrr2, hn, hcond.1]
      · simp [clientPost, hcond]

/-- Witness for C4: a client holding tokens receives 401, the refresh
succeeds with a new access token, and the call ends authenticated with
the new token after exactly one refresh and one retry. -/
theorem call_single_refresh_retry_witness :
    (clientGet ⟨some "old", some "r"⟩ ⟨401, some (some "new"), 200⟩).refreshNetCalls = 1 ∧
    (clientGet ⟨some "old", some "r"⟩ ⟨401, some (some "new"), 200⟩).tokensUsed
      = [some "old", some "new"] ∧
    (clientGet ⟨some "old", some "r"⟩ ⟨401, some (some "new"), 200⟩).client.access
      = some "new" ∧
    (clientGet ⟨some "old", some "r"⟩ ⟨401, some (some "new"), 200⟩).status = 200 := by
  have h := call_single_refresh_retry ⟨some "old", some "r"⟩ ⟨401, some (some "new"), 200⟩
    rfl rfl
  exact ⟨h.1.1, (h.1.2.1 (some "new") rfl).1, (h.1.2.1 (some "new") rfl).2.1,
    (h.1.2.1 (some "new") rfl).2.2⟩

end ChemViz

